import Mathlib

/-!
Verification development for the WilcoCrypt password-based file encryption
envelope (`src/wilcocrypt.js`).  The JavaScript source is shallowly embedded:
pure functions become Lean functions, the Node `fs` module becomes an explicit
file-system map plus an event trace, thrown errors become `Except` values, and
the external collaborators (Node `crypto`, `zlib`, `@msgpack/msgpack`) are
modelled by concrete executable functions satisfying the contracts the spec
states for them (deterministic KDF, ideal AEAD, lossless record codec).
-/

namespace WilcoCrypt

/-- Byte sequences (Node `Buffer`s); every entry of a real buffer is `< 256`. -/
abbrev Bytes := List Nat

/- =========================
   Hex codec: models `Buffer.prototype.toString` with the hex encoding and
   `Buffer.from` with the hex encoding.  The Node decoder consumes two hex digits per byte
   and stops at the first position where it cannot; it never throws.
   The encoder only ever emits lowercase digits.
========================= -/

/-- Hex digit for a nibble value: 0-9 then lowercase a-f. -/
def hexChar (n : Nat) : Char :=
  if n < 10 then Char.ofNat (48 + n)
  else Char.ofNat (87 + n)

/-- Value of a hex digit character (digits, lowercase and uppercase letters),
`none` when it is not a hex digit. -/
def hexVal (c : Char) : Option Nat :=
  if 48 ≤ c.toNat ∧ c.toNat ≤ 57 then some (c.toNat - 48)
  else if 97 ≤ c.toNat ∧ c.toNat ≤ 102 then some (c.toNat - 87)
  else if 65 ≤ c.toNat ∧ c.toNat ≤ 70 then some (c.toNat - 55)
  else none

/-- Two hex digits of one byte, high nibble first. -/
def hexEncodeByte (b : Nat) : List Char := [hexChar (b / 16), hexChar (b % 16)]

/-- Hex digit list of a byte sequence. -/
def hexEncodeChars : Bytes → List Char
  | [] => []
  | b :: rest => hexEncodeByte b ++ hexEncodeChars rest

/-- Models `buf.toString` with the hex encoding. -/
def hexEncode (b : Bytes) : String := String.mk (hexEncodeChars b)

/-- Decode hex digit pairs, stopping at the first malformed position
(mirrors Node, which truncates instead of throwing). -/
def hexDecodeChars : List Char → Bytes
  | c1 :: c2 :: rest =>
    match hexVal c1, hexVal c2 with
    | some hi, some lo => (16 * hi + lo) :: hexDecodeChars rest
    | _, _ => []
  | _ => []

/-- Models `Buffer.from` with the hex encoding. -/
def hexDecode (s : String) : Bytes := hexDecodeChars s.data

lemma hexVal_hexChar : ∀ n < 16, hexVal (hexChar n) = some n := by decide

lemma hexDecodeChars_hexEncodeChars (b : Bytes) (h : ∀ x ∈ b, x < 256) :
    hexDecodeChars (hexEncodeChars b) = b := by
  induction b with
  | nil => rfl
  | cons x rest ih =>
    have hx : x < 256 := h x (List.mem_cons_self x rest)
    have hdiv : x / 16 < 16 := by omega
    have hmod : x % 16 < 16 := Nat.mod_lt _ (by omega)
    have hrest : ∀ y ∈ rest, y < 256 := fun y hy => h y (List.mem_cons_of_mem _ hy)
    simp only [hexEncodeChars, hexEncodeByte, List.cons_append, List.nil_append,
      hexDecodeChars, hexVal_hexChar _ hdiv, hexVal_hexChar _ hmod, ih hrest,
      Nat.div_add_mod x 16]
    simp [ih hrest]

lemma hexDecode_hexEncode (b : Bytes) (h : ∀ x ∈ b, x < 256) :
    hexDecode (hexEncode b) = b :=
  hexDecodeChars_hexEncodeChars b h

lemma hexEncode_ne_empty (b : Bytes) (h : b ≠ []) : hexEncode b ≠ "" := by
  cases b with
  | nil => exact absurd rfl h
  | cons x rest =>
    simp [hexEncode, hexEncodeChars, hexEncodeByte, String.ext_iff]

/- =========================
   Key derivation collaborator.
========================= -/

/-- Derived symmetric key.  Modelled from the spec: the Node `scryptSync` function is an
external collaborator (spec section 4.1: a deterministic, collision-resistant
memory-hard KDF with fixed 32-byte output); the model keeps the
(password, salt) pair as the opaque key value, which makes derivation
deterministic and distinct for distinct passwords, as the spec requires. -/
structure DerivedKey where
  password : String
  salt : Bytes
deriving DecidableEq, Repr

/-- Models `scryptSync(password, salt, 32)`. -/
def scryptSync (password : String) (salt : Bytes) (_keylen : Nat) : DerivedKey :=
  ⟨password, salt⟩

/- =========================
   AES-256-GCM collaborator, modelled from the spec as an ideal AEAD
   (spec sections 4.2/4.3/8): a length-preserving keystream cipher plus an
   authentication tag that binds key, nonce and ciphertext collision-freely,
   so that decryption succeeds exactly on the tag produced for the same
   key, nonce and ciphertext.
========================= -/

/-- Code points of a string, as used to mix the password into the model. -/
def strBytes (s : String) : Bytes := s.data.map Char.toNat

/-- Sum of a byte sequence. -/
def byteSum : Bytes → Nat
  | [] => 0
  | b :: rest => b + byteSum rest

/-- Deterministic keystream byte for position `i` (stands in for the
AES-CTR keystream inside GCM). -/
def keystream (k : DerivedKey) (iv : Bytes) (i : Nat) : Nat :=
  (byteSum (strBytes k.password) + byteSum k.salt + byteSum iv + 97 * i) % 256

/-- XOR the keystream into a byte sequence starting at position `i`.
Applying it twice with the same key, nonce and start index is the identity. -/
def xorKs (k : DerivedKey) (iv : Bytes) : Nat → Bytes → Bytes
  | _, [] => []
  | i, b :: rest => (b ^^^ keystream k iv i) :: xorKs k iv (i + 1) rest

lemma xorKs_length (k : DerivedKey) (iv : Bytes) :
    ∀ i l, (xorKs k iv i l).length = l.length := by
  intro i l
  induction l generalizing i with
  | nil => rfl
  | cons b rest ih => simp [xorKs, ih]

lemma xorKs_xorKs (k : DerivedKey) (iv : Bytes) :
    ∀ i l, xorKs k iv i (xorKs k iv i l) = l := by
  intro i l
  induction l generalizing i with
  | nil => rfl
  | cons b rest ih =>
    simp [xorKs, ih, Nat.xor_assoc]

lemma xorKs_lt (k : DerivedKey) (iv : Bytes) :
    ∀ i l, (∀ x ∈ l, x < 256) → ∀ x ∈ xorKs k iv i l, x < 256 := by
  intro i l
  induction l generalizing i with
  | nil => intro _ x hx; simp [xorKs] at hx
  | cons b rest ih =>
    intro h x hx
    simp only [xorKs, List.mem_cons] at hx
    rcases hx with hx | hx
    · subst hx
      have hb : b < 2 ^ 8 := h b (List.mem_cons_self b rest)
      have hk : keystream k iv i < 2 ^ 8 := Nat.mod_lt _ (by omega)
      exact Nat.xor_lt_two_pow hb hk
    · exact ih (i + 1) (fun y hy => h y (List.mem_cons_of_mem _ hy)) x hx

lemma xorKs_ne_nil (k : DerivedKey) (iv : Bytes) (i : Nat) (l : Bytes)
    (h : l ≠ []) : xorKs k iv i l ≠ [] := by
  cases l with
  | nil => exact absurd rfl h
  | cons b rest => simp [xorKs]

/-- Unary encoding of one byte: injective, and uses only values 0 and 1. -/
def encNat (n : Nat) : Bytes := List.replicate n 1 ++ [0]

/-- Unary encoding of a byte sequence: injective, values 0 and 1 only. -/
def encList : Bytes → Bytes
  | [] => []
  | n :: rest => encNat n ++ encList rest

/-- Injective encoding of a derived key, separated by the value 2. -/
def encKey (k : DerivedKey) : Bytes :=
  encList (strBytes k.password) ++ 2 :: encList k.salt

/-- The authentication tag of the modelled AEAD: an injective (collision-free)
function of key, nonce and ciphertext, standing in for the GCM tag whose
verification the spec requires to fail for a different key (spec section 8,
wrong password fails closed). -/
def ghash (k : DerivedKey) (iv ct : Bytes) : Bytes :=
  encKey k ++ (iv ++ ct)

lemma mem_encList (l : Bytes) : ∀ x ∈ encList l, x = 0 ∨ x = 1 := by
  induction l with
  | nil => intro x hx; simp [encList] at hx
  | cons n rest ih =>
    intro x hx
    simp only [encList, encNat, List.append_assoc, List.mem_append,
      List.mem_replicate, List.mem_cons, List.mem_singleton] at hx
    rcases hx with h | h | h
    · exact Or.inr h.2
    · simp at h; exact Or.inl h
    · exact ih x h

lemma two_not_mem_encList (l : Bytes) : 2 ∉ encList l := by
  intro h
  rcases mem_encList l 2 h with h2 | h2 <;> omega

lemma encNat_append_inj :
    ∀ a b (r1 r2 : Bytes), encNat a ++ r1 = encNat b ++ r2 → a = b ∧ r1 = r2 := by
  intro a
  induction a with
  | zero =>
    intro b r1 r2 h
    cases b with
    | zero =>
      simp only [encNat, List.replicate, List.nil_append, List.cons_append] at h
      exact ⟨rfl, by injection h⟩
    | succ m =>
      simp only [encNat, List.replicate, List.nil_append, List.cons_append] at h
      injection h with h1 _
      omega
  | succ n ih =>
    intro b r1 r2 h
    cases b with
    | zero =>
      simp only [encNat, List.replicate, List.nil_append, List.cons_append] at h
      injection h with h1 _
      omega
    | succ m =>
      simp only [encNat, List.replicate, List.cons_append] at h
      injection h with _ h2
      have := ih m r1 r2 (by simpa [encNat] using h2)
      exact ⟨by omega, this.2⟩

lemma encList_ne_nil (n : Nat) (rest : Bytes) : encList (n :: rest) ≠ [] := by
  simp [encList, encNat]

lemma encList_inj : ∀ l1 l2 : Bytes, encList l1 = encList l2 → l1 = l2 := by
  intro l1
  induction l1 with
  | nil =>
    intro l2 h
    cases l2 with
    | nil => rfl
    | cons m rest2 => exact absurd h.symm (by simp [encList, encNat])
  | cons n rest ih =>
    intro l2 h
    cases l2 with
    | nil => exact absurd h (by simp [encList, encNat])
    | cons m rest2 =>
      simp only [encList] at h
      obtain ⟨hnm, hrest⟩ := encNat_append_inj n m _ _ h
      rw [hnm, ih rest2 hrest]

lemma sep_split (x : Nat) :
    ∀ (xs1 xs2 r1 r2 : Bytes), x ∉ xs1 → x ∉ xs2 →
      xs1 ++ x :: r1 = xs2 ++ x :: r2 → xs1 = xs2 ∧ r1 = r2 := by
  intro xs1
  induction xs1 with
  | nil =>
    intro xs2 r1 r2 _ hx2 h
    cases xs2 with
    | nil => exact ⟨rfl, by injection h⟩
    | cons y ys =>
      simp only [List.nil_append, List.cons_append] at h
      injection h with h1 _
      exact absurd (h1 ▸ List.mem_cons_self y ys) hx2
  | cons y ys ih =>
    intro xs2 r1 r2 hx1 hx2 h
    cases xs2 with
    | nil =>
      simp only [List.cons_append, List.nil_append] at h
      injection h with h1 _
      exact absurd (h1 ▸ List.mem_cons_self y ys) hx1
    | cons z zs =>
      simp only [List.cons_append] at h
      injection h with h1 h2
      have hm1 : x ∉ ys := fun hc => hx1 (List.mem_cons_of_mem _ hc)
      have hm2 : x ∉ zs := fun hc => hx2 (List.mem_cons_of_mem _ hc)
      obtain ⟨ha, hb⟩ := ih zs r1 r2 hm1 hm2 h2
      exact ⟨by rw [h1, ha], hb⟩

lemma strBytes_inj {s t : String} (h : strBytes s = strBytes t) : s = t := by
  have hdata : s.data = t.data := by
    have : ∀ (l1 l2 : List Char), l1.map Char.toNat = l2.map Char.toNat → l1 = l2 := by
      intro l1
      induction l1 with
      | nil => intro l2 h2; cases l2 with
        | nil => rfl
        | cons c cs => simp at h2
      | cons c cs ih =>
        intro l2 h2
        cases l2 with
        | nil => simp at h2
        | cons d ds =>
          simp only [List.map_cons, List.cons.injEq] at h2
          have hc : c = d := by
            have := h2.1
            calc c = Char.ofNat c.toNat := (Char.ofNat_toNat c).symm
              _ = Char.ofNat d.toNat := by rw [this]
              _ = d := Char.ofNat_toNat d
          exact by rw [hc, ih ds h2.2]
    exact this s.data t.data h
  cases s; cases t; exact congrArg String.mk hdata

lemma encKey_inj {k1 k2 : DerivedKey} (h : encKey k1 = encKey k2) : k1 = k2 := by
  unfold encKey at h
  obtain ⟨hpw, hsalt⟩ :=
    sep_split 2 _ _ _ _ (two_not_mem_encList _) (two_not_mem_encList _) h
  have hp := strBytes_inj (encList_inj _ _ hpw)
  have hs := encList_inj _ _ hsalt
  cases k1; cases k2
  simp only [DerivedKey.mk.injEq]
  exact ⟨hp, hs⟩

lemma ghash_inj_key {k1 k2 : DerivedKey} {iv ct : Bytes}
    (h : ghash k1 iv ct = ghash k2 iv ct) : k1 = k2 := by
  unfold ghash at h
  exact encKey_inj (List.append_cancel_right h)

lemma ghash_lt (k : DerivedKey) (iv ct : Bytes)
    (hiv : ∀ x ∈ iv, x < 256) (hct : ∀ x ∈ ct, x < 256) :
    ∀ x ∈ ghash k iv ct, x < 256 := by
  intro x hx
  unfold ghash encKey at hx
  rcases List.mem_append.mp hx with h | h
  · rcases List.mem_append.mp h with h1 | h1
    · rcases mem_encList _ x h1 with h0 | h0 <;> omega
    · rcases List.mem_cons.mp h1 with h2 | h2
      · omega
      · rcases mem_encList _ x h2 with h0 | h0 <;> omega
  · rcases List.mem_append.mp h with h1 | h1
    · exact hiv x h1
    · exact hct x h1

lemma ghash_ne_nil (k : DerivedKey) (iv ct : Bytes) : ghash k iv ct ≠ [] := by
  simp [ghash, encKey]

/- =========================
   Errors.  `WilcoCryptError` carries a message and a machine-readable code;
   errors raised by the collaborators (zlib, msgpack, fs) are plain `Error`s
   with only a message.
========================= -/

/-- A thrown JavaScript error: either a `WilcoCryptError` (message, code) or a
collaborator-level error. -/
inductive JsError where
  | wilco (message : String) (code : String)
  | collab (message : String)
deriving DecidableEq, Repr

/-- Internal WilcoCrypt version (`wilcocrypt._.VERSION`). -/
def VERSION : String := "2.0.0"

/-- Minimum allowed password length (`wilcocrypt._.MIN_PASSWORD_LENGTH`). -/
def MIN_PASSWORD_LENGTH : Nat := 6

/-- The error thrown by `assertPassword`. -/
def weakPasswordError : JsError :=
  .wilco ("Password must be at least " ++ toString MIN_PASSWORD_LENGTH ++ " characters")
    "WEAK_PASSWORD"

/-- The error thrown by `assertKeyAndIv` for a bad IV. -/
def invalidIvError : JsError :=
  .wilco "Invalid IV (expected 12-byte Buffer for GCM)" "INVALID_IV"

/-- The single opaque error thrown by `decryptData` on any GCM failure. -/
def decryptionFailedError : JsError :=
  .wilco "Decryption failed (invalid password, corrupted data, or tampered file)"
    "DECRYPTION_FAILED"

/-- The error thrown by `decryptFile` when required fields are missing. -/
def corruptedFileError : JsError :=
  .wilco "Corrupted encrypted file (missing required fields)" "CORRUPTED_FILE"

/-- The error thrown by `decryptFile` on a version mismatch; `v` is the
template-rendered offending version. -/
def unsupportedVersionError (v : String) : JsError :=
  .wilco ("Unsupported WilcoCrypt version: " ++ v) "UNSUPPORTED_VERSION"

/-- The raw collaborator error raised by gunzip/msgpack-decode on malformed
container bytes; note it is not a `WilcoCryptError` and has no code. -/
def containerError : JsError :=
  .collab "zlib or msgpack: malformed container data"

/-- The raw fs error for a missing file. -/
def enoentError (path : String) : JsError :=
  .collab ("ENOENT: no such file or directory, open " ++ path)

/- =========================
   Passwords.  JavaScript passes an arbitrary value; `assertPassword` first
   checks that `typeof password` is the string type.  The model collapses every
   non-string value into one constructor.
========================= -/

/-- A JavaScript value in password position: a string, or anything else. -/
inductive JsVal where
  | str (s : String)
  | nonstr
deriving DecidableEq, Repr

/-- Models `wilcocrypt._.assertPassword`. -/
def assertPassword (password : JsVal) : Except JsError Unit :=
  match password with
  | .str s =>
    if s.length < MIN_PASSWORD_LENGTH then .error weakPasswordError else .ok ()
  | .nonstr => .error weakPasswordError

/-- The string content of a validated password (only reached for `.str`). -/
def pwString : JsVal → String
  | .str s => s
  | .nonstr => ""

/-- Models `wilcocrypt._.assertKeyAndIv`.  The key branch never fires in the
embedding: every key reaching it is the 32-byte output of `scryptSync`; the
IV length check is kept as in the source. -/
def assertKeyAndIv (_key : DerivedKey) (iv : Bytes) : Except JsError Unit :=
  if iv.length ≠ 12 then .error invalidIvError else .ok ()

/-- Models `wilcocrypt._.encryptData`: AES-256-GCM via the ideal AEAD model,
returning ciphertext and authentication tag. -/
def encryptData (plainData : Bytes) (key : DerivedKey) (iv : Bytes) :
    Except JsError (Bytes × Bytes) :=
  match assertKeyAndIv key iv with
  | .error e => .error e
  | .ok () =>
    let ciphertext := xorKs key iv 0 plainData
    .ok (ciphertext, ghash key iv ciphertext)

/-- Models `wilcocrypt._.decryptData`: hex-decode ciphertext and tag, verify
the tag, return the plaintext; every failure inside the try block is folded
into the single `decryptionFailedError`.  (the Node hex decoder never throws;
a malformed hex string truncates and then fails tag verification.) -/
def decryptData (cipherHex authTagHex : String) (key : DerivedKey) (iv : Bytes) :
    Except JsError Bytes :=
  match assertKeyAndIv key iv with
  | .error e => .error e
  | .ok () =>
    let ct := hexDecode cipherHex
    if hexDecode authTagHex = ghash key iv ct then .ok (xorKs key iv 0 ct)
    else .error decryptionFailedError

/- =========================
   The envelope record and the container codec (msgpack + gzip collaborator).
========================= -/

/-- The deserialized envelope record.  The source stores hex strings for the
byte fields and a version string; after msgpack decoding any field may be
absent, which the model renders as `none`. -/
structure Envelope where
  payload : Option String
  authTag : Option String
  salt : Option String
  iv : Option String
  version : Option String
deriving DecidableEq, Repr

/-- Serialization of one optional string field of the record. -/
def encodeField : Option String → Bytes
  | none => [0]
  | some s => 1 :: s.data.length :: strBytes s

/-- Models `msgpack_encode` followed by `gzipSync(level 9)`: a deterministic
lossless serialization of the record into a byte blob (spec section 6 requires
the codec round-trip to be exact).  The leading 42 models the container
framing that malformed blobs lack. -/
def packBlob (data : Envelope) : Bytes :=
  42 :: (encodeField data.payload ++ encodeField data.authTag ++
    encodeField data.salt ++ encodeField data.iv ++ encodeField data.version)

/-- Deserialization of one field; fails cleanly on malformed input. -/
def decodeField : Bytes → Except JsError (Option String × Bytes)
  | 0 :: rest => .ok (none, rest)
  | 1 :: len :: rest =>
    if len ≤ rest.length then
      .ok (some (String.mk ((rest.take len).map Char.ofNat)), rest.drop len)
    else .error containerError
  | _ => .error containerError

/-- Models `gunzipSync` followed by `msgpack_decode`: recovers the record from
a well-formed blob and raises the raw collaborator error on anything else
(spec section 6: the collaborator fails cleanly on malformed input). -/
def unpackBlob (blob : Bytes) : Except JsError Envelope :=
  match blob with
  | 42 :: rest =>
    match decodeField rest with
    | .error e => .error e
    | .ok (payload, r1) =>
      match decodeField r1 with
      | .error e => .error e
      | .ok (tag, r2) =>
        match decodeField r2 with
        | .error e => .error e
        | .ok (salt, r3) =>
          match decodeField r3 with
          | .error e => .error e
          | .ok (iv, r4) =>
            match decodeField r4 with
            | .error e => .error e
            | .ok (ver, r5) =>
              if r5 = [] then .ok ⟨payload, tag, salt, iv, ver⟩
              else .error containerError
  | _ => .error containerError

lemma decodeField_encodeField (f : Option String) (rest : Bytes) :
    decodeField (encodeField f ++ rest) = .ok (f, rest) := by
  cases f with
  | none => rfl
  | some s =>
    have hlen : (strBytes s).length = s.data.length := by
      simp [strBytes]
    simp only [encodeField, decodeField, List.cons_append]
    rw [if_pos (by simp [List.length_append, hlen])]
    have htake : (strBytes s ++ rest).take s.data.length = strBytes s := by
      rw [← hlen, List.take_left]
    have hdrop : (strBytes s ++ rest).drop s.data.length = rest := by
      rw [← hlen, List.drop_left]
    rw [htake, hdrop]
    have hmap : (strBytes s).map Char.ofNat = s.data := by
      simp only [strBytes, List.map_map]
      have : (Char.ofNat ∘ Char.toNat) = id := by
        funext c
        exact Char.ofNat_toNat c
      rw [this, List.map_id]
    rw [hmap]

lemma decodeField_encodeField_nil (f : Option String) :
    decodeField (encodeField f) = .ok (f, []) := by
  have := decodeField_encodeField f []
  rwa [List.append_nil] at this

lemma unpackBlob_packBlob (e : Envelope) : unpackBlob (packBlob e) = .ok e := by
  obtain ⟨p, a, s, i, v⟩ := e
  simp only [packBlob, unpackBlob, List.append_assoc, decodeField_encodeField,
    decodeField_encodeField_nil]
  simp

/- =========================
   File system and I/O trace.
========================= -/

/-- The file system: a map from paths to raw byte contents. -/
abbrev FS := String → Option Bytes

/-- Observable effects of one API call, in order. -/
inductive Event where
  | readEv (path : String)
  | writeEv (path : String) (content : Bytes)
  | deriveKeyEv
deriving DecidableEq, Repr

/-- Models `readFileSync` (throws ENOENT when absent). -/
def readFileSync (fs : FS) (path : String) : Except JsError Bytes :=
  match fs path with
  | some b => .ok b
  | none => .error (enoentError path)

/-- Models `writeFileSync`. -/
def writeFileSync (fs : FS) (path : String) (content : Bytes) : FS :=
  fun q => if q = path then some content else fs q

/-- Models `wilcocrypt._.packToFile`. -/
def packToFile (fs : FS) (data : Envelope) (filePath : String) : FS :=
  writeFileSync fs filePath (packBlob data)

/-- Models `wilcocrypt._.unpackFromFile`.  Note: no error mapping happens
here; a collaborator failure propagates as-is. -/
def unpackFromFile (fs : FS) (filePath : String) : Except JsError Envelope :=
  match readFileSync fs filePath with
  | .error e => .error e
  | .ok file => unpackBlob file

/- =========================
   Public API.
========================= -/

/-- JS truthiness of a possibly-absent string field: `undefined` and the
empty string are both falsy. -/
def truthy : Option String → Bool
  | none => false
  | some s => !(s == "")

/-- JS template-literal rendering of a possibly-undefined string. -/
def jsTemplate : Option String → String
  | none => "undefined"
  | some s => s

/-- Models `wilcocrypt.encryptFile`.  The Node randomness is a parameter of
the embedding: `ivR` and `saltR` stand for the `randomBytes(12)` and
`randomBytes(16)` results of the call.  The trace lists the file reads, key
derivations and file writes the call performs, in order; the returned FS
reflects the writes. -/
def encryptFile (fs : FS) (filePath : String) (password : JsVal)
    (ivR saltR : Bytes) : Except JsError FS × List Event :=
  match assertPassword password with
  | .error e => (.error e, [])
  | .ok () =>
    match readFileSync fs filePath with
    | .error e => (.error e, [.readEv filePath])
    | .ok fileData =>
      let key := scryptSync (pwString password) saltR 32
      match encryptData fileData key ivR with
      | .error e => (.error e, [.readEv filePath, .deriveKeyEv])
      | .ok (ciphertext, tag) =>
        let envelope : Envelope :=
          { payload := some (hexEncode ciphertext)
            authTag := some (hexEncode tag)
            salt := some (hexEncode saltR)
            iv := some (hexEncode ivR)
            version := some VERSION }
        (.ok (packToFile fs envelope (filePath ++ ".enc")),
         [.readEv filePath, .deriveKeyEv,
          .writeEv (filePath ++ ".enc") (packBlob envelope)])

/-- Models `wilcocrypt.decryptFile`: validate the password, read and unpack
the envelope, gate on the exact version, check field presence by JS
truthiness, derive the key from the stored salt, and run authenticated
decryption. -/
def decryptFile (fs : FS) (filePath : String) (password : JsVal) :
    Except JsError Bytes × List Event :=
  match assertPassword password with
  | .error e => (.error e, [])
  | .ok () =>
    match unpackFromFile fs filePath with
    | .error e => (.error e, [.readEv filePath])
    | .ok envelope =>
      if envelope.version ≠ some VERSION then
        (.error (unsupportedVersionError (jsTemplate envelope.version)),
         [.readEv filePath])
      else if !(truthy envelope.payload && truthy envelope.authTag &&
                truthy envelope.salt && truthy envelope.iv) then
        (.error corruptedFileError, [.readEv filePath])
      else
        let key := scryptSync (pwString password)
          (hexDecode (envelope.salt.getD "")) 32
        (decryptData (envelope.payload.getD "") (envelope.authTag.getD "") key
          (hexDecode (envelope.iv.getD "")),
         [.readEv filePath, .deriveKeyEv])

/-- The composite `decrypt(encrypt(p, pwEnc), pwDec)` of spec section 8,
with separate encryption and decryption passwords. -/
def encThenDecryptWith (fs : FS) (filePath : String) (pwEnc pwDec : JsVal)
    (ivR saltR : Bytes) : Except JsError Bytes :=
  match (encryptFile fs filePath pwEnc ivR saltR).fst with
  | .error e => .error e
  | .ok fs2 => (decryptFile fs2 (filePath ++ ".enc") pwDec).fst

/-- The round-trip composite `decrypt(encrypt(p, pw), pw)` of spec section 8. -/
def encThenDecrypt (fs : FS) (filePath : String) (pw : JsVal)
    (ivR saltR : Bytes) : Except JsError Bytes :=
  encThenDecryptWith fs filePath pw pw ivR saltR

/- =========================
   Evaluation lemmas for the two API calls.
========================= -/

/-- The envelope `encryptFile` assembles for plaintext `p`, password `s`,
salt and IV; a well-formed envelope with these parameters can equally be
crafted by hand, so it also serves as an adversarial fixture. -/
def envelopeFor (s : String) (salt iv p : Bytes) : Envelope :=
  let key := scryptSync s salt 32
  let ct := xorKs key iv 0 p
  { payload := some (hexEncode ct)
    authTag := some (hexEncode (ghash key iv ct))
    salt := some (hexEncode salt)
    iv := some (hexEncode iv)
    version := some VERSION }

lemma truthy_some {x : String} (h : x ≠ "") : truthy (some x) = true := by
  simp [truthy, h]

lemma encryptFile_run (fs : FS) (path : String) (s : String) (ivR saltR p : Bytes)
    (hpw : ¬ s.length < MIN_PASSWORD_LENGTH)
    (hfs : fs path = some p) (hivlen : ivR.length = 12) :
    encryptFile fs path (.str s) ivR saltR =
      (.ok (packToFile fs (envelopeFor s saltR ivR p) (path ++ ".enc")),
       [.readEv path, .deriveKeyEv,
        .writeEv (path ++ ".enc") (packBlob (envelopeFor s saltR ivR p))]) := by
  simp only [encryptFile, assertPassword, if_neg hpw, readFileSync, hfs,
    pwString, scryptSync, encryptData, assertKeyAndIv, hivlen]
  rw [if_neg (by omega : ¬ (12 : Nat) ≠ 12)]
  simp [envelopeFor, packToFile, scryptSync]

lemma decryptFile_crafted (fs : FS) (path : String) (s s2 : String)
    (salt iv p : Bytes)
    (hfs : fs path = some (packBlob (envelopeFor s salt iv p)))
    (hpw2 : ¬ s2.length < MIN_PASSWORD_LENGTH)
    (hp : ∀ x ∈ p, x < 256) (hpne : p ≠ [])
    (hivlen : iv.length = 12) (hiv : ∀ x ∈ iv, x < 256)
    (hsaltne : salt ≠ []) (hsalt : ∀ x ∈ salt, x < 256) :
    decryptFile fs path (.str s2) =
      ((if s2 = s then Except.ok p else Except.error decryptionFailedError),
       [Event.readEv path, Event.deriveKeyEv]) := by
  have hctlt : ∀ x ∈ xorKs ⟨s, salt⟩ iv 0 p, x < 256 := xorKs_lt _ iv 0 p hp
  have hctne : xorKs (⟨s, salt⟩ : DerivedKey) iv 0 p ≠ [] := xorKs_ne_nil _ iv 0 p hpne
  have hivne : iv ≠ [] := by
    intro hc; rw [hc] at hivlen; exact absurd hivlen (by simp)
  have htag_lt : ∀ x ∈ ghash ⟨s, salt⟩ iv (xorKs ⟨s, salt⟩ iv 0 p), x < 256 :=
    ghash_lt _ iv _ hiv hctlt
  -- unpack the container
  simp only [decryptFile, assertPassword, if_neg hpw2, unpackFromFile,
    readFileSync, hfs, unpackBlob_packBlob, envelopeFor, scryptSync]
  -- version gate
  rw [if_neg (by simp)]
  -- field truthiness
  rw [if_neg (by
    simp only [truthy_some (hexEncode_ne_empty _ hctne),
      truthy_some (hexEncode_ne_empty _ (ghash_ne_nil ⟨s, salt⟩ iv _)),
      truthy_some (hexEncode_ne_empty _ hsaltne),
      truthy_some (hexEncode_ne_empty _ hivne)]
    simp)]
  -- key derivation from the stored salt and authenticated decryption
  simp only [Option.getD_some, pwString, hexDecode_hexEncode salt hsalt,
    hexDecode_hexEncode iv hiv, decryptData, assertKeyAndIv, scryptSync, hivlen]
  rw [if_neg (by omega : ¬ (12 : Nat) ≠ 12)]
  rw [hexDecode_hexEncode _ hctlt, hexDecode_hexEncode _ htag_lt]
  by_cases hs : s2 = s
  · subst hs
    rw [if_pos rfl, if_pos rfl, xorKs_xorKs]
  · rw [if_neg hs, if_neg (fun hc =>
      hs ((congrArg DerivedKey.password (ghash_inj_key hc)).symm))]

instance {ε α : Type} [DecidableEq ε] [DecidableEq α] : DecidableEq (Except ε α) :=
  fun a b =>
    match a, b with
    | .error x, .error y =>
      if h : x = y then .isTrue (congrArg Except.error h)
      else .isFalse (fun hc => h (Except.error.inj hc))
    | .ok x, .ok y =>
      if h : x = y then .isTrue (congrArg Except.ok h)
      else .isFalse (fun hc => h (Except.ok.inj hc))
    | .error _, .ok _ => .isFalse (fun hc => Except.noConfusion hc)
    | .ok _, .error _ => .isFalse (fun hc => Except.noConfusion hc)

lemma decodeField_error (b : Bytes) (e : JsError) (h : decodeField b = .error e) :
    e = containerError := by
  unfold decodeField at h
  split at h
  · exact absurd h (by simp)
  · split at h
    · exact absurd h (by simp)
    · exact (Except.error.inj h).symm
  · exact (Except.error.inj h).symm

lemma unpackBlob_shape (blob : Bytes) :
    (∃ env, unpackBlob blob = .ok env) ∨ unpackBlob blob = .error containerError := by
  unfold unpackBlob
  split
  · rename_i rest
    cases h1 : decodeField rest with
    | error e1 => right; simp [decodeField_error _ _ h1]
    | ok pr1 =>
      obtain ⟨f1, r1⟩ := pr1
      cases h2 : decodeField r1 with
      | error e2 => right; simp [h2, decodeField_error _ _ h2]
      | ok pr2 =>
        obtain ⟨f2, r2⟩ := pr2
        cases h3 : decodeField r2 with
        | error e3 => right; simp [h2, h3, decodeField_error _ _ h3]
        | ok pr3 =>
          obtain ⟨f3, r3⟩ := pr3
          cases h4 : decodeField r3 with
          | error e4 => right; simp [h2, h3, h4, decodeField_error _ _ h4]
          | ok pr4 =>
            obtain ⟨f4, r4⟩ := pr4
            cases h5 : decodeField r4 with
            | error e5 => right; simp [h2, h3, h4, h5, decodeField_error _ _ h5]
            | ok pr5 =>
              obtain ⟨f5, r5⟩ := pr5
              by_cases h6 : r5 = []
              · left
                exact ⟨⟨f1, f2, f3, f4, f5⟩, by simp [h2, h3, h4, h5, h6]⟩
              · right
                simp [h2, h3, h4, h5, h6]
  · right; rfl

/- =========================
   Concrete fixtures used by witnesses and counterexamples.
========================= -/

/-- A 12-byte IV, as `randomBytes(12)` would return. -/
def iv12 : Bytes := List.replicate 12 0

/-- A 16-byte salt, as `randomBytes(16)` would return. -/
def salt16 : Bytes := List.replicate 16 0

/-- An 8-byte salt, shorter than the 16 bytes the spec mandates. -/
def salt8 : Bytes := [1, 2, 3, 4, 5, 6, 7, 8]

/-- A file system holding one empty plaintext file. -/
def fsEmptyFile : FS := fun q => if q = "doc.txt" then some [] else none

/-- A file system holding one two-byte plaintext file. -/
def fsHello : FS := fun q => if q = "doc.txt" then some [104, 105] else none

/-- A file system whose `.enc` file holds bytes that are not a valid
compressed container. -/
def fsMalformed : FS := fun q => if q = "doc.txt.enc" then some [7] else none

/-- A well-formed envelope whose `version` field is absent. -/
def envNoVersion : Envelope := ⟨some "aa", some "bb", some "cc", some "dd", none⟩

/-- A file system whose `.enc` file packs `envNoVersion`. -/
def fsNoVersion : FS :=
  fun q => if q = "doc.txt.enc" then some (packBlob envNoVersion) else none

/-- A well-formed envelope carrying the legacy version string. -/
def envOldVersion : Envelope :=
  ⟨some "aa", some "bb", some "cc", some "dd", some "1.0.0"⟩

/-- A file system whose `.enc` file packs `envOldVersion`. -/
def fsOldVersion : FS :=
  fun q => if q = "doc.txt.enc" then some (packBlob envOldVersion) else none

/-- A well-formed, current-version envelope whose `payload` field is absent. -/
def envNoPayload : Envelope := ⟨none, some "bb", some "cc", some "dd", some VERSION⟩

/-- A file system whose `.enc` file packs `envNoPayload`. -/
def fsNoPayload : FS :=
  fun q => if q = "doc.txt.enc" then some (packBlob envNoPayload) else none

/-- A file system whose `.enc` file holds a crafted envelope whose stored salt
is only 8 bytes long. -/
def fsShortSalt : FS :=
  fun q =>
    if q = "doc.txt.enc" then
      some (packBlob (envelopeFor "secret1" salt8 iv12 [104, 105]))
    else none

/-- A crafted envelope with a 4-byte salt, used for the stored plaintext 42. -/
def fsShortSalt4 : FS :=
  fun q =>
    if q = "x.enc" then some (packBlob (envelopeFor "hunter2" [9, 9, 9, 9] iv12 [42]))
    else none

lemma empty_plaintext_corrupted (fs : FS) (path s1 s2 : String) (ivR saltR : Bytes)
    (hpw1 : ¬ s1.length < MIN_PASSWORD_LENGTH)
    (hpw2 : ¬ s2.length < MIN_PASSWORD_LENGTH)
    (hfs : fs path = some []) (hivlen : ivR.length = 12) :
    encThenDecryptWith fs path (.str s1) (.str s2) ivR saltR
      = .error corruptedFileError := by
  unfold encThenDecryptWith
  simp only [encryptFile_run fs path s1 ivR saltR [] hpw1 hfs hivlen]
  have hfs2 : (packToFile fs (envelopeFor s1 saltR ivR []) (path ++ ".enc")) (path ++ ".enc")
      = some (packBlob (envelopeFor s1 saltR ivR [])) := by
    simp [packToFile, writeFileSync]
  simp only [decryptFile, assertPassword, if_neg hpw2, unpackFromFile, readFileSync,
    hfs2, unpackBlob_packBlob]
  rw [if_neg (by simp [envelopeFor])]
  rw [if_pos (by simp [envelopeFor, scryptSync, xorKs, hexEncode, hexEncodeChars, truthy])]

/- =========================
   Claims.
========================= -/

/-- C1: the round-trip claim fails on the code at the empty plaintext.  For
every policy-conforming password and every file holding zero bytes,
`decryptFile` applied to the envelope `encryptFile` just produced throws the
CORRUPTED_FILE error instead of returning the empty byte sequence: the empty
ciphertext hex-encodes to the empty string, which the JS truthiness check
`!envelope.payload` treats like an absent field, although every field is
present — contradicting both the spec, which says "including empty", and the
"missing required fields" message. -/
theorem c1_roundtrip_fails_on_empty_plaintext
    (fs : FS) (path s : String) (ivR saltR : Bytes)
    (hpw : ¬ s.length < MIN_PASSWORD_LENGTH)
    (hfs : fs path = some [])
    (hivlen : ivR.length = 12) :
    encThenDecrypt fs path (.str s) ivR saltR = .error corruptedFileError := by
  unfold encThenDecrypt
  exact empty_plaintext_corrupted fs path s s ivR saltR hpw hpw hfs hivlen

/-- Witness for C1 at concrete inputs: an empty file, password `secret1`. -/
theorem c1_roundtrip_fails_on_empty_plaintext_witness :
    encThenDecrypt fsEmptyFile "doc.txt" (.str "secret1") iv12 salt16
      = .error corruptedFileError :=
  c1_roundtrip_fails_on_empty_plaintext fsEmptyFile "doc.txt" "secret1" iv12 salt16
    (by decide) (by decide) (by decide)

/-- C2 counterexample: with the empty plaintext (a plaintext the claim
quantifies over) and two distinct policy-conforming passwords, decryption
raises CORRUPTED_FILE, not the claimed DECRYPTION_FAILED. -/
theorem c2_counterexample :
    encThenDecryptWith fsEmptyFile "doc.txt" (.str "secret1") (.str "secret2") iv12 salt16
      = .error corruptedFileError ∧ corruptedFileError ≠ decryptionFailedError :=
  ⟨empty_plaintext_corrupted fsEmptyFile "doc.txt" "secret1" "secret2" iv12 salt16
    (by decide) (by decide) (by decide) (by decide), by decide⟩

/-- C2 (amended): for every NONEMPTY plaintext and every pair of distinct
policy-conforming passwords, decrypting an envelope produced with the first
password using the second raises the single DECRYPTION_FAILED error and never
returns plaintext bytes.  (For the empty plaintext the call instead raises
CORRUPTED_FILE, see the counterexample; it still returns no plaintext.) -/
theorem c2_wrong_password_fails_closed
    (fs : FS) (path s1 s2 : String) (p ivR saltR : Bytes)
    (hpw1 : ¬ s1.length < MIN_PASSWORD_LENGTH)
    (hpw2 : ¬ s2.length < MIN_PASSWORD_LENGTH)
    (hne : s1 ≠ s2)
    (hfs : fs path = some p) (hpne : p ≠ []) (hp : ∀ x ∈ p, x < 256)
    (hivlen : ivR.length = 12) (hiv : ∀ x ∈ ivR, x < 256)
    (hsaltlen : saltR.length = 16) (hsalt : ∀ x ∈ saltR, x < 256) :
    encThenDecryptWith fs path (.str s1) (.str s2) ivR saltR
      = .error decryptionFailedError := by
  unfold encThenDecryptWith
  simp only [encryptFile_run fs path s1 ivR saltR p hpw1 hfs hivlen]
  have hsne : saltR ≠ [] := by
    intro hc; rw [hc] at hsaltlen; exact absurd hsaltlen (by simp)
  have hfs2 : (packToFile fs (envelopeFor s1 saltR ivR p) (path ++ ".enc")) (path ++ ".enc")
      = some (packBlob (envelopeFor s1 saltR ivR p)) := by
    simp [packToFile, writeFileSync]
  have hd := decryptFile_crafted
    (packToFile fs (envelopeFor s1 saltR ivR p) (path ++ ".enc")) (path ++ ".enc")
    s1 s2 saltR ivR p hfs2 hpw2 hp hpne hivlen hiv hsne hsalt
  rw [hd]
  have hne2 : s2 ≠ s1 := fun hc => hne hc.symm
  simp [hne2]

/-- Witness for the amended C2 at concrete inputs: plaintext `hi`, encrypted
with `secret1`, decrypted with `secret2`. -/
theorem c2_wrong_password_fails_closed_witness :
    encThenDecryptWith fsHello "doc.txt" (.str "secret1") (.str "secret2") iv12 salt16
      = .error decryptionFailedError :=
  c2_wrong_password_fails_closed fsHello "doc.txt" "secret1" "secret2"
    [104, 105] iv12 salt16 (by decide) (by decide) (by decide) (by decide)
    (by decide) (by decide) (by decide) (by decide) (by decide) (by decide)

/-- C3 counterexample: on a file whose bytes are not a valid compressed
container, `decryptFile` surfaces the raw collaborator (zlib/msgpack) error,
which is not the CORRUPTED_FILE WilcoCryptError the claim demands: the source
wraps `unpackFromFile` in no try/catch. -/
theorem c3_counterexample :
    (decryptFile fsMalformed "doc.txt.enc" (.str "secret1")).fst
      = .error containerError
    ∧ containerError ≠ corruptedFileError := by
  exact ⟨by decide, by decide⟩

/-- C3 (amended): a failure of the decompression/deserialization collaborator
on a malformed container propagates out of `decryptFile` unchanged — it is
always the raw collaborator-level error, never mapped to CORRUPTED_FILE; the
CORRUPTED_FILE error arises only from the later missing-field check. -/
theorem c3_collab_error_propagates
    (fs : FS) (path : String) (pw : JsVal) (blob : Bytes) (e : JsError)
    (hok : assertPassword pw = .ok ())
    (hfs : fs path = some blob)
    (hbad : unpackBlob blob = .error e) :
    e = containerError ∧ decryptFile fs path pw = (.error e, [.readEv path]) := by
  have he : e = containerError := by
    rcases unpackBlob_shape blob with ⟨env, henv⟩ | herr
    · rw [henv] at hbad; exact absurd hbad (by simp)
    · rw [herr] at hbad; exact (Except.error.inj hbad).symm
  refine ⟨he, ?_⟩
  simp only [decryptFile, hok, unpackFromFile, readFileSync, hfs, hbad]

/-- Witness for the amended C3 at concrete inputs: the malformed blob `[7]`. -/
theorem c3_collab_error_propagates_witness :
    containerError = containerError
    ∧ decryptFile fsMalformed "doc.txt.enc" (.str "secret1")
        = (.error containerError, [.readEv "doc.txt.enc"]) :=
  c3_collab_error_propagates fsMalformed "doc.txt.enc" (.str "secret1") [7]
    containerError (by decide) (by decide) (by decide)

/-- C4 counterexample: a well-formed envelope whose `version` field is absent
is rejected with the UNSUPPORTED_VERSION error whose message interpolates the
JS `undefined`; no distinct MissingVersion error exists in the source — the
single strict-inequality check at the top of `decryptFile` handles both the
absent and the mismatched case. -/
theorem c4_counterexample :
    (decryptFile fsNoVersion "doc.txt.enc" (.str "secret1")).fst
      = .error (unsupportedVersionError "undefined") := by
  decide

/-- C4 (amended): for every well-formed container record without a `version`
field, `decryptFile` raises UNSUPPORTED_VERSION (message rendering the absent
value as `undefined`), not a distinct MissingVersion error. -/
theorem c4_missing_version_unsupported
    (fs : FS) (path : String) (pw : JsVal) (env : Envelope)
    (hok : assertPassword pw = .ok ())
    (hfs : fs path = some (packBlob env))
    (hv : env.version = none) :
    decryptFile fs path pw
      = (.error (unsupportedVersionError "undefined"), [.readEv path]) := by
  simp only [decryptFile, hok, unpackFromFile, readFileSync, hfs, unpackBlob_packBlob]
  rw [if_pos (by simp [hv])]
  simp [jsTemplate, hv]

/-- Witness for the amended C4 at concrete inputs. -/
theorem c4_missing_version_unsupported_witness :
    decryptFile fsNoVersion "doc.txt.enc" (.str "secret1")
      = (.error (unsupportedVersionError "undefined"), [.readEv "doc.txt.enc"]) :=
  c4_missing_version_unsupported fsNoVersion "doc.txt.enc" (.str "secret1")
    envNoVersion (by decide) (by decide) (by decide)

/-- C5: for every envelope whose `version` field is present but not exactly
the supported version string 2.0.0, `decryptFile` raises UNSUPPORTED_VERSION
and the error message carries the offending version string; no range or
semver compatibility is applied. -/
theorem c5_unsupported_version_exact_match
    (fs : FS) (path : String) (pw : JsVal) (env : Envelope) (v : String)
    (hok : assertPassword pw = .ok ())
    (hfs : fs path = some (packBlob env))
    (hv : env.version = some v) (hne : v ≠ VERSION) :
    decryptFile fs path pw
      = (.error (unsupportedVersionError v), [.readEv path]) := by
  simp only [decryptFile, hok, unpackFromFile, readFileSync, hfs, unpackBlob_packBlob]
  rw [if_pos (by simp [hv, hne])]
  simp [jsTemplate, hv]

/-- Witness for C5 at concrete inputs: the legacy version string 1.0.0. -/
theorem c5_unsupported_version_exact_match_witness :
    decryptFile fsOldVersion "doc.txt.enc" (.str "secret1")
      = (.error (unsupportedVersionError "1.0.0"), [.readEv "doc.txt.enc"]) :=
  c5_unsupported_version_exact_match fsOldVersion "doc.txt.enc" (.str "secret1")
    envOldVersion "1.0.0" (by decide) (by decide) (by decide) (by decide)

/-- C6: with a well-sized IV (so that the pre-try key/IV assertion passes),
every failure of the authenticated-decryption step in `decryptData` — tag
mismatch, malformed ciphertext hex (which Node truncates, leading to a tag
mismatch), wrong key — yields one and the same opaque error value,
DECRYPTION_FAILED; in particular the error never distinguishes a wrong
password from corrupted or tampered data. -/
theorem c6_decryption_failure_opaque
    (cipherHex authTagHex : String) (key : DerivedKey) (iv : Bytes) (e : JsError)
    (hivlen : iv.length = 12)
    (h : decryptData cipherHex authTagHex key iv = .error e) :
    e = decryptionFailedError := by
  have hval : decryptData cipherHex authTagHex key iv =
      (if hexDecode authTagHex = ghash key iv (hexDecode cipherHex)
       then .ok (xorKs key iv 0 (hexDecode cipherHex))
       else .error decryptionFailedError) := by
    unfold decryptData assertKeyAndIv
    rw [hivlen]
    rw [if_neg (by omega : ¬ (12 : Nat) ≠ 12)]
  rw [hval] at h
  by_cases hc : hexDecode authTagHex = ghash key iv (hexDecode cipherHex)
  · rw [if_pos hc] at h
    exact absurd h (by simp)
  · rw [if_neg hc] at h
    exact (Except.error.inj h).symm

/-- Witness for C6 at concrete inputs: a malformed ciphertext hex string and
an empty tag fail, and the error equals the single opaque constant. -/
theorem c6_decryption_failure_opaque_witness :
    iv12.length = 12 ∧ decryptionFailedError = decryptionFailedError :=
  ⟨by decide, c6_decryption_failure_opaque "zz" "" ⟨"secret1", []⟩ iv12
    decryptionFailedError (by decide) (by decide)⟩

/-- C7: a failing `encryptFile` call never writes an output artifact — in
particular a weak password is rejected with no I/O at all (empty trace) —
and a successful call performs exactly one read followed by one final write
whose content is the fully assembled and encoded envelope blob. -/
theorem c7_no_output_until_envelope_ready
    (fs : FS) (path : String) (pw : JsVal) (ivR saltR : Bytes) :
    (∀ e, assertPassword pw = .error e →
        encryptFile fs path pw ivR saltR = (.error e, []))
    ∧ (∀ e, (encryptFile fs path pw ivR saltR).fst = .error e →
        ∀ q c, Event.writeEv q c ∉ (encryptFile fs path pw ivR saltR).snd)
    ∧ (∀ fs2, (encryptFile fs path pw ivR saltR).fst = .ok fs2 →
        ∃ blob, fs2 (path ++ ".enc") = some blob ∧
          (encryptFile fs path pw ivR saltR).snd =
            [.readEv path, .deriveKeyEv, .writeEv (path ++ ".enc") blob]) := by
  refine ⟨?_, ?_, ?_⟩
  · intro e he
    simp [encryptFile, he]
  · intro e he q c
    cases h1 : assertPassword pw with
    | error e1 => simp [encryptFile, h1]
    | ok u =>
      cases u
      cases h2 : readFileSync fs path with
      | error e2 => simp [encryptFile, h1, h2]
      | ok d =>
        cases h3 : encryptData d (scryptSync (pwString pw) saltR 32) ivR with
        | error e3 => simp [encryptFile, h1, h2, h3]
        | ok pr =>
          obtain ⟨ct, tag⟩ := pr
          exfalso
          simp [encryptFile, h1, h2, h3] at he
  · intro fs2 hok
    cases h1 : assertPassword pw with
    | error e1 => simp [encryptFile, h1] at hok
    | ok u =>
      cases u
      cases h2 : readFileSync fs path with
      | error e2 => simp [encryptFile, h1, h2] at hok
      | ok d =>
        cases h3 : encryptData d (scryptSync (pwString pw) saltR 32) ivR with
        | error e3 => simp [encryptFile, h1, h2, h3] at hok
        | ok pr =>
          obtain ⟨ct, tag⟩ := pr
          simp only [encryptFile, h1, h2, h3] at hok ⊢
          refine ⟨packBlob ⟨some (hexEncode ct), some (hexEncode tag),
            some (hexEncode saltR), some (hexEncode ivR), some VERSION⟩, ?_, ?_⟩
          · rw [← Except.ok.inj hok]
            simp [packToFile, writeFileSync]
          · simp

/-- Witness for C7 at concrete inputs: with the weak password `abc` the call
fails and performs no I/O at all. -/
theorem c7_no_output_until_envelope_ready_witness :
    encryptFile (fun _ => none) "doc.txt" (.str "abc") iv12 salt16
      = (.error weakPasswordError, []) :=
  (c7_no_output_until_envelope_ready (fun _ => none) "doc.txt" (.str "abc")
    iv12 salt16).1 weakPasswordError (by decide)

/-- C8: for every deserialized record that passes the version gate but lacks
any of the required fields payload, authTag, salt or iv, `decryptFile`
raises CORRUPTED_FILE — and the trace shows no key derivation happened. -/
theorem c8_missing_required_field_corrupted
    (fs : FS) (path : String) (pw : JsVal) (env : Envelope)
    (hok : assertPassword pw = .ok ())
    (hfs : fs path = some (packBlob env))
    (hver : env.version = some VERSION)
    (hmiss : env.payload = none ∨ env.authTag = none ∨ env.salt = none ∨
      env.iv = none) :
    decryptFile fs path pw = (.error corruptedFileError, [.readEv path]) := by
  simp only [decryptFile, hok, unpackFromFile, readFileSync, hfs, unpackBlob_packBlob]
  rw [if_neg (by simp [hver])]
  rw [if_pos (by rcases hmiss with h | h | h | h <;> simp [truthy, h])]

/-- Witness for C8 at concrete inputs: a current-version envelope without a
payload field. -/
theorem c8_missing_required_field_corrupted_witness :
    decryptFile fsNoPayload "doc.txt.enc" (.str "secret1")
      = (.error corruptedFileError, [.readEv "doc.txt.enc"]) :=
  c8_missing_required_field_corrupted fsNoPayload "doc.txt.enc" (.str "secret1")
    envNoPayload (by decide) (by decide) (by decide) (Or.inl (by decide))

/-- C9 counterexample: a crafted envelope whose stored salt is 8 bytes — not
16 — decrypts successfully: the trace shows the key WAS derived from the
8-byte salt, and the plaintext is returned instead of any InvalidInput
failure.  Neither `decryptFile` nor the key-derivation call checks salt
length; no INVALID_INPUT error exists in the source. -/
theorem c9_counterexample :
    decryptFile fsShortSalt "doc.txt.enc" (.str "secret1")
      = (.ok [104, 105], [.readEv "doc.txt.enc", .deriveKeyEv]) := by
  have h := decryptFile_crafted fsShortSalt "doc.txt.enc" "secret1" "secret1"
    salt8 iv12 [104, 105] rfl (by decide) (by decide) (by decide) (by decide)
    (by decide) (by decide) (by decide)
  rw [if_pos rfl] at h
  exact h

/-- C9 (amended): key derivation performs no salt-length validation: for a
stored salt of any nonempty byte length — in particular any length other
than 16 — `decryptFile` derives the key from that salt and authenticated
decryption proceeds normally, returning the plaintext; no InvalidInput-style
error is raised. -/
theorem c9_salt_length_unchecked
    (fs : FS) (path s : String) (salt iv p : Bytes)
    (hpw : ¬ s.length < MIN_PASSWORD_LENGTH)
    (hfs : fs path = some (packBlob (envelopeFor s salt iv p)))
    (hsaltlen : salt.length ≠ 16) (hsaltne : salt ≠ [])
    (hsalt : ∀ x ∈ salt, x < 256)
    (hp : ∀ x ∈ p, x < 256) (hpne : p ≠ [])
    (hivlen : iv.length = 12) (hiv : ∀ x ∈ iv, x < 256) :
    decryptFile fs path (.str s) = (.ok p, [.readEv path, .deriveKeyEv]) := by
  have h := decryptFile_crafted fs path s s salt iv p hfs hpw hp hpne hivlen
    hiv hsaltne hsalt
  rw [if_pos rfl] at h
  exact h

/-- Witness for the amended C9 at concrete inputs: a 4-byte salt. -/
theorem c9_salt_length_unchecked_witness :
    decryptFile fsShortSalt4 "x.enc" (.str "hunter2")
      = (.ok [42], [.readEv "x.enc", .deriveKeyEv]) :=
  c9_salt_length_unchecked fsShortSalt4 "x.enc" "hunter2" [9, 9, 9, 9] iv12 [42]
    (by decide) rfl (by decide) (by decide) (by decide) (by decide) (by decide)
    (by decide) (by decide)

/-- C10: for every password that is not a string or is a string shorter than
6 characters, `decryptFile` fails with the WEAK_PASSWORD error and an empty
trace: the password policy is enforced before any file read or unpacking, so
a too-short password yields WeakPassword, never DecryptionFailed. -/
theorem c10_decrypt_rejects_weak_password_first
    (fs : FS) (path : String) (pw : JsVal)
    (hweak : pw = JsVal.nonstr ∨
      ∃ s, pw = JsVal.str s ∧ s.length < MIN_PASSWORD_LENGTH) :
    decryptFile fs path pw = (.error weakPasswordError, []) := by
  rcases hweak with h | ⟨s, hs, hlen⟩
  · subst h
    simp [decryptFile, assertPassword]
  · subst hs
    simp [decryptFile, assertPassword, hlen]

/-- Witness for C10 at concrete inputs: the three-character password `abc`. -/
theorem c10_decrypt_rejects_weak_password_first_witness :
    decryptFile (fun _ => none) "doc.txt.enc" (.str "abc")
      = (.error weakPasswordError, []) :=
  c10_decrypt_rejects_weak_password_first (fun _ => none) "doc.txt.enc"
    (.str "abc") (Or.inr ⟨"abc", rfl, by decide⟩)

end WilcoCrypt
